import Mathlib

/-!
Shallow embedding of the aicoach chat backend:
* `lib/langchain_message_converter.ts` — the Vercel→LangChain message adapter;
* `app/api/chat/route.ts` — the `search_knowledge_base` tool (`createSearchTool`)
  and the `POST` HTTP handler.

JavaScript strings become `String`; a value that may be `undefined`/`null`
becomes `Option`; a computation that may throw becomes `Except String`
(carrying the message of the thrown error); `console.warn`/`console.log` side
effects are modelled as an explicitly collected list of warning strings.
-/

namespace AICoach

/-- Wire-format chat message (`Message` from the `ai` package): a role tag and
free-text content. -/
structure VercelChatMessage where
  role : String
  content : String
deriving Repr, DecidableEq

/-- The LangChain message variants produced by the converter
(`HumanMessage` / `AIMessage` with string content). -/
inductive BaseMessage where
  | human (content : String)
  | ai (content : String)
deriving Repr, DecidableEq

/-- One step of `convertVercelMessagesToLangChainMessages`: the converted
message together with the `console.warn` output this step emits
(`[]` for recognised roles). Mirrors the body of the `map` callback in
`lib/langchain_message_converter.ts`. -/
def convertVercelMessage (m : VercelChatMessage) : BaseMessage × List String :=
  if m.role = "user" then
    (BaseMessage.human m.content, [])
  else if m.role = "assistant" then
    (BaseMessage.ai m.content, [])
  else
    (BaseMessage.human ("Unknown role: " ++ m.content),
     ["Unknown message role during conversion: " ++ m.role])

/-- The adapter `convertVercelMessagesToLangChainMessages` from
`lib/langchain_message_converter.ts`: `messages.map(...)`. -/
def convertVercelMessagesToLangChainMessages
    (messages : List VercelChatMessage) : List BaseMessage :=
  messages.map (fun m => (convertVercelMessage m).1)

/-- The `console.warn` lines emitted while converting a message list, in order. -/
def conversionWarnings (messages : List VercelChatMessage) : List String :=
  messages.flatMap (fun m => (convertVercelMessage m).2)

/-- A retrieved document (`Document` from `@langchain/core/documents`):
`metadata?.source` may be absent, hence `Option`. -/
structure Document where
  source : Option String
  pageContent : String
deriving Repr, DecidableEq

/-- The tool input, a union of a plain string and an object holding a
query field. -/
inductive ToolInput where
  | str (s : String)
  | obj (query : String)
deriving Repr, DecidableEq

/-- Extract the query from the union-typed input (the ternary at the top
of the tool body). -/
def toolQuery : ToolInput → String
  | ToolInput.str s => s
  | ToolInput.obj q => q

/-- Whitespace as stripped by JavaScript `String.prototype.trim` (the ASCII
part, which is all the embedding needs). -/
def isJsWhitespace (c : Char) : Bool :=
  c = ' ' || c = '\t' || c = '\n' || c = '\r' || c = '\x0b' || c = '\x0c'

/-- JavaScript `query.trim()`: strip leading and trailing whitespace. -/
def jsTrim (s : String) : String :=
  ⟨((s.data.dropWhile isJsWhitespace).reverse.dropWhile isJsWhitespace).reverse⟩

/-- The source label of a document: `doc.metadata?.source` with the
fallback `Unknown Source` taken in the two falsy cases (absent source and
empty-string source). -/
def sourceLabel : Option String → String
  | none => "Unknown Source"
  | some s => if s = "" then "Unknown Source" else s

/-- One entry of the tool result: the Source line with the document label
followed by the Content line with `doc.pageContent`. -/
def formatDoc (d : Document) : String :=
  "Source: " ++ sourceLabel d.source ++ "\nContent: " ++ d.pageContent

/-- JavaScript `Array.prototype.join(sep)`. -/
def joinSep (sep : String) : List String → String
  | [] => ""
  | [x] => x
  | x :: y :: xs => x ++ sep ++ joinSep sep (y :: xs)

/-- Fixed tool-error string for an empty/whitespace query. -/
def noQueryError : String :=
  "Tool Error: No query provided. Please provide a search query for the knowledge base."

/-- Fixed sentinel for zero retrieved documents. -/
def noInfoMessage : String :=
  "No relevant information found in the knowledge base for that query."

/-- Header line prepended when documents are found. -/
def kbHeader : String :=
  "Found the following information in the knowledge base:\n"

/-- Delimiter between formatted documents (`join("\n\n---\n")`). -/
def docSeparator : String := "\n\n---\n"

/-- Prefix of the tool-error string produced by the `catch` block. -/
def searchFailureText (e : String) : String :=
  "Tool Error: An error occurred while searching the knowledge base: " ++ e

/-- The `func` of the `search_knowledge_base` `DynamicTool` built by
`createSearchTool`. The retriever (`retriever.getRelevantDocuments`) is a
parameter: `Except.error e` models it throwing an error with message `e`.
The result is `Except String String`: `Except.ok` is a normally returned
string, `Except.error` would be the function itself throwing — which the
`try`/`catch` structure is meant to prevent. -/
def searchKnowledgeBase (retriever : String → Except String (List Document))
    (input : ToolInput) : Except String String :=
  let query := toolQuery input
  if query = "" || jsTrim query = "" then
    Except.ok noQueryError
  else
    match retriever query with
    | Except.ok docs =>
        if docs.length = 0 then
          Except.ok noInfoMessage
        else
          Except.ok (kbHeader ++ joinSep docSeparator (docs.map formatDoc))
    | Except.error e => Except.ok (searchFailureText e)

/-- The environment variables the handler checks; `none` models an unset
variable and an empty string models a set-but-empty one (both are falsy). -/
structure Env where
  SUPABASE_URL : Option String
  SUPABASE_ANON_KEY : Option String
  OPENAI_API_KEY : Option String
deriving Repr, DecidableEq

/-- JavaScript falsiness of `process.env.X` (undefined or empty string). -/
def falsyEnvVar : Option String → Bool
  | none => true
  | some s => s = ""

/-- Whether any of the three required environment variables is falsy
(the condition guarding the 500 response). -/
def envMissing (env : Env) : Bool :=
  falsyEnvVar env.SUPABASE_URL || falsyEnvVar env.SUPABASE_ANON_KEY ||
    falsyEnvVar env.OPENAI_API_KEY

/-- The parsed request body: `body.messages` may be absent (`?? []`). -/
structure RequestBody where
  messages : Option (List VercelChatMessage)
deriving Repr, DecidableEq

/-- What the handler hands to `agentExecutor.streamEvents`: the current
input and the converted chat history. -/
structure AgentInvocation where
  input : String
  chat_history : List BaseMessage
deriving Repr, DecidableEq

/-- The response of the handler: a JSON error body with a status code, or the
streamed response of an agent run (status 200). -/
inductive HttpResponse where
  | errorJson (status : Nat) (error : String)
  | stream (inv : AgentInvocation)
deriving Repr, DecidableEq

/-- HTTP status of a response (the stream branch is served with 200). -/
def respStatus : HttpResponse → Nat
  | HttpResponse.errorJson s _ => s
  | HttpResponse.stream _ => 200

/-- Message produced by the outer catch: the thrown message, or the fixed
fallback text when that message is falsy. -/
def outerCatchMessage (e : String) : String :=
  if e = "" then "An unexpected error occurred in the chat API." else e

/-- The `POST` handler of `app/api/chat/route.ts`.

`body` is the result of `await req.json()`: `Except.error e` models the
parse throwing (caught by the outer `catch`). `runFails` models everything
after validation — client construction, agent assembly and the streamed
run; `some e` means some step threw with message `e` (again reaching the
outer `catch`), `none` that the stream response is returned. -/
def POST (env : Env) (body : Except String RequestBody)
    (runFails : AgentInvocation → Option String) : HttpResponse :=
  match body with
  | Except.error e => HttpResponse.errorJson 500 (outerCatchMessage e)
  | Except.ok b =>
    let vercelMessages := b.messages.getD []
    if vercelMessages.length = 0 then
      HttpResponse.errorJson 400 "No messages provided"
    else
      let currentInput :=
        match vercelMessages.getLast? with
        | some m => m.content
        | none => ""
      if currentInput = "" then
        HttpResponse.errorJson 400 "No current message content found"
      else if envMissing env then
        HttpResponse.errorJson 500 "Missing environment variables"
      else
        let inv : AgentInvocation :=
          ⟨currentInput, convertVercelMessagesToLangChainMessages vercelMessages.dropLast⟩
        match runFails inv with
        | some e => HttpResponse.errorJson 500 (outerCatchMessage e)
        | none => HttpResponse.stream inv

/-- Number of positions at which `needle` occurs in `hay` (a nonempty needle
cannot overlap itself here — `"Source:"` has no nontrivial border — so this
is the plain occurrence count). -/
def countOccs (needle : List Char) : List Char → Nat
  | [] => 0
  | c :: rest => (if needle.isPrefixOf (c :: rest) then 1 else 0) + countOccs needle rest

/-- The marker whose occurrences the spec counts. -/
def sourceNeedle : List Char := "Source:".data

lemma isPrefixOf_nil_left (x : List Char) : ([] : List Char).isPrefixOf x = true := by
  cases x <;> rfl

lemma isPrefixOf_cons_cons (d e : Char) (n' x' : List Char) :
    (d :: n').isPrefixOf (e :: x') = (d == e && n'.isPrefixOf x') := rfl

lemma isPrefixOf_append_self (n t : List Char) : n.isPrefixOf (n ++ t) = true := by
  induction n with
  | nil => exact isPrefixOf_nil_left t
  | cons d n' ih =>
    rw [List.cons_append, isPrefixOf_cons_cons, ih]
    simp

lemma isPrefixOf_extend (n : List Char) :
    ∀ x t : List Char, n.isPrefixOf x = true → n.isPrefixOf (x ++ t) = true := by
  induction n with
  | nil => intro x t _; exact isPrefixOf_nil_left (x ++ t)
  | cons d n' ih =>
    intro x t h
    cases x with
    | nil => exact absurd h (by simp [List.isPrefixOf])
    | cons e x' =>
      rw [isPrefixOf_cons_cons, Bool.and_eq_true] at h
      rw [List.cons_append, isPrefixOf_cons_cons, Bool.and_eq_true]
      exact ⟨h.1, ih x' t h.2⟩

lemma isPrefixOf_shrink (n : List Char) (c : Char) (hc : c ∉ n) :
    ∀ x b : List Char, n.isPrefixOf (x ++ c :: b) = true → n.isPrefixOf x = true := by
  induction n with
  | nil => intro x b _; exact isPrefixOf_nil_left x
  | cons d n' ih =>
    intro x b h
    cases x with
    | nil =>
      rw [List.nil_append, isPrefixOf_cons_cons, Bool.and_eq_true, beq_iff_eq] at h
      exact absurd h.1 (fun hdc => hc (hdc ▸ List.mem_cons_self d n'))
    | cons e x' =>
      rw [List.cons_append, isPrefixOf_cons_cons, Bool.and_eq_true] at h
      rw [isPrefixOf_cons_cons, Bool.and_eq_true]
      exact ⟨h.1, ih (fun hm => hc (List.mem_cons_of_mem d hm)) x' b h.2⟩

lemma countOccs_cons_ne (d : Char) (n' : List Char) (c : Char) (rest : List Char)
    (h : c ≠ d) : countOccs (d :: n') (c :: rest) = countOccs (d :: n') rest := by
  have hb : (d == c) = false := by simp [Ne.symm h]
  simp [countOccs, List.isPrefixOf, hb]

lemma countOccs_append_of_ne (d : Char) (n' : List Char) (a b : List Char)
    (h : ∀ c ∈ a, c ≠ d) : countOccs (d :: n') (a ++ b) = countOccs (d :: n') b := by
  induction a with
  | nil => rfl
  | cons e a' ih =>
    rw [List.cons_append, countOccs_cons_ne d n' e (a' ++ b) (h e (List.mem_cons_self e a'))]
    exact ih (fun c hm => h c (List.mem_cons_of_mem e hm))

lemma countOccs_append_cons (n : List Char) (c : Char) (hc : c ∉ n) :
    ∀ a b : List Char,
      countOccs n (a ++ c :: b) = countOccs n a + countOccs n (c :: b) := by
  intro a
  induction a with
  | nil => intro b; simp [countOccs]
  | cons e a' ih =>
    intro b
    have hind : n.isPrefixOf (e :: a' ++ c :: b) = n.isPrefixOf (e :: a') := by
      cases hp : n.isPrefixOf (e :: a') with
      | true => exact isPrefixOf_extend n (e :: a') (c :: b) hp
      | false =>
        cases hp2 : n.isPrefixOf (e :: a' ++ c :: b) with
        | false => rfl
        | true =>
          have := isPrefixOf_shrink n c hc (e :: a') b hp2
          rw [hp] at this
          exact this.symm
    show (if n.isPrefixOf (e :: (a' ++ c :: b)) then 1 else 0) + countOccs n (a' ++ c :: b)
        = ((if n.isPrefixOf (e :: a') then 1 else 0) + countOccs n a') + countOccs n (c :: b)
    rw [show e :: (a' ++ c :: b) = e :: a' ++ c :: b from rfl, hind, ih b]
    omega

lemma countOccs_cons_eq (n : List Char) (c : Char) (rest : List Char) :
    countOccs n (c :: rest) = (if n.isPrefixOf (c :: rest) then 1 else 0) + countOccs n rest :=
  rfl

lemma countOccs_formatDoc (d : Document)
    (h1 : countOccs sourceNeedle (sourceLabel d.source).data = 0)
    (h2 : countOccs sourceNeedle d.pageContent.data = 0) :
    countOccs sourceNeedle (formatDoc d).data = 1 := by
  have hformat : (formatDoc d).data
      = ("Source: ".data ++ (sourceLabel d.source).data)
        ++ '\n' :: ("Content: ".data ++ d.pageContent.data) := by
    simp only [formatDoc, String.data_append]
    rw [List.append_assoc]
    rfl
  rw [hformat, countOccs_append_cons sourceNeedle '\n' (by decide)]
  have hright : countOccs sourceNeedle
      ('\n' :: ("Content: ".data ++ d.pageContent.data)) = 0 := by
    show countOccs sourceNeedle ("\nContent: ".data ++ d.pageContent.data) = 0
    rw [show sourceNeedle = 'S' :: "ource:".data from rfl] at h2 ⊢
    rw [countOccs_append_of_ne 'S' "ource:".data _ _ (by decide)]
    exact h2
  have hrest : countOccs sourceNeedle
      ("ource: ".data ++ (sourceLabel d.source).data) = 0 := by
    rw [show sourceNeedle = 'S' :: "ource:".data from rfl] at h1 ⊢
    rw [countOccs_append_of_ne 'S' "ource:".data _ _ (by decide)]
    exact h1
  have hpre : sourceNeedle.isPrefixOf
      ('S' :: ("ource: ".data ++ (sourceLabel d.source).data)) = true := by
    show sourceNeedle.isPrefixOf (sourceNeedle ++ ' ' :: (sourceLabel d.source).data) = true
    exact isPrefixOf_append_self sourceNeedle (' ' :: (sourceLabel d.source).data)
  have hleft : countOccs sourceNeedle
      ("Source: ".data ++ (sourceLabel d.source).data) = 1 := by
    show countOccs sourceNeedle
      ('S' :: ("ource: ".data ++ (sourceLabel d.source).data)) = 1
    rw [countOccs_cons_eq, hpre, hrest]
    simp
  rw [hright, hleft]

lemma countOccs_joinSep (es : List String)
    (h : ∀ e ∈ es, countOccs sourceNeedle e.data = 1) :
    countOccs sourceNeedle (joinSep docSeparator es).data = es.length := by
  induction es with
  | nil => rfl
  | cons x xs ih =>
    cases xs with
    | nil => simpa using h x (List.mem_cons_self x [])
    | cons y ys =>
      have hx : countOccs sourceNeedle x.data = 1 := h x (List.mem_cons_self x (y :: ys))
      have hrest : ∀ e ∈ y :: ys, countOccs sourceNeedle e.data = 1 :=
        fun e he => h e (List.mem_cons_of_mem x he)
      have hj : (joinSep docSeparator (x :: y :: ys)).data
          = x.data ++ '\n' :: ("\n---\n".data ++ (joinSep docSeparator (y :: ys)).data) := by
        show (x ++ docSeparator ++ joinSep docSeparator (y :: ys)).data = _
        simp only [String.data_append]
        rw [List.append_assoc]
        rfl
      rw [hj, countOccs_append_cons sourceNeedle '\n' (by decide), hx]
      have htail : countOccs sourceNeedle
          ('\n' :: ("\n---\n".data ++ (joinSep docSeparator (y :: ys)).data))
          = countOccs sourceNeedle (joinSep docSeparator (y :: ys)).data := by
        show countOccs sourceNeedle
            ("\n\n---\n".data ++ (joinSep docSeparator (y :: ys)).data)
          = countOccs sourceNeedle (joinSep docSeparator (y :: ys)).data
        rw [show sourceNeedle = 'S' :: "ource:".data from rfl]
        rw [countOccs_append_of_ne 'S' "ource:".data _ _ (by decide)]
      rw [htail, ih hrest]
      simp [List.length_cons]
      omega

lemma countOccs_searchResult (docs : List Document)
    (h : ∀ d ∈ docs, countOccs sourceNeedle (sourceLabel d.source).data = 0
        ∧ countOccs sourceNeedle d.pageContent.data = 0) :
    countOccs sourceNeedle
      (kbHeader ++ joinSep docSeparator (docs.map formatDoc)).data = docs.length := by
  have hhead : (kbHeader ++ joinSep docSeparator (docs.map formatDoc)).data
      = kbHeader.data ++ (joinSep docSeparator (docs.map formatDoc)).data :=
    String.data_append kbHeader _
  rw [hhead, show sourceNeedle = 'S' :: "ource:".data from rfl,
    countOccs_append_of_ne 'S' "ource:".data _ _ (by decide),
    show ('S' :: "ource:".data) = sourceNeedle from rfl]
  have hcounts : ∀ e ∈ docs.map formatDoc, countOccs sourceNeedle e.data = 1 := by
    intro e he
    rcases List.mem_map.mp he with ⟨d, hd, rfl⟩
    exact countOccs_formatDoc d (h d hd).1 (h d hd).2
  rw [countOccs_joinSep (docs.map formatDoc) hcounts, List.length_map]

/-- C1: for every input and every retriever behaviour, the
`search_knowledge_base` tool function returns a string and never throws:
in particular a retriever failure is converted into the descriptive
tool-error string rather than propagated. -/
theorem C1_search_tool_never_throws
    (retriever : String → Except String (List Document)) (input : ToolInput) :
    (∃ s : String, searchKnowledgeBase retriever input = Except.ok s) ∧
    (∀ e : String, jsTrim (toolQuery input) ≠ "" →
      retriever (toolQuery input) = Except.error e →
      searchKnowledgeBase retriever input = Except.ok (searchFailureText e)) := by
  have hok : ∀ r : String → Except String (List Document),
      ∃ s : String, searchKnowledgeBase r input = Except.ok s := by
    intro r
    simp only [searchKnowledgeBase]
    split
    · exact ⟨noQueryError, rfl⟩
    · cases hr : r (toolQuery input) with
      | ok docs =>
        by_cases hd : docs.length = 0
        · exact ⟨noInfoMessage, by simp [hd]⟩
        · exact ⟨kbHeader ++ joinSep docSeparator (docs.map formatDoc),
            by simp [hd]⟩
      | error e => exact ⟨searchFailureText e, rfl⟩
  refine ⟨hok retriever, ?_⟩
  intro e hq hr
  have hq0 : toolQuery input ≠ "" := fun h0 => hq (by rw [h0]; rfl)
  simp only [searchKnowledgeBase]
  rw [if_neg (by simp [hq0, hq]), hr]

/-- Witness for C1: a retriever that throws "network down" on a non-empty
query yields the descriptive tool-error string. -/
theorem C1_witness :
    searchKnowledgeBase (fun _ => Except.error "network down") (ToolInput.str "policies")
      = Except.ok
          "Tool Error: An error occurred while searching the knowledge base: network down" :=
  (C1_search_tool_never_throws (fun _ => Except.error "network down")
      (ToolInput.str "policies")).2 "network down" (by decide) rfl

/-- C2 (amended): for a non-whitespace query, zero retrieved documents yield
exactly the "no relevant information" sentinel; `N > 0` documents yield the
header line followed by the `Source:`/`Content:` rendering of each document
joined by the delimiter in store order, and — provided no source
label or page content of a document itself contains the marker — the result
contains exactly `N` occurrences of `"Source:"`. -/
theorem C2_search_tool_output
    (retriever : String → Except String (List Document)) (q : String)
    (docs : List Document)
    (hq : jsTrim q ≠ "")
    (hr : retriever q = Except.ok docs) :
    (docs.length = 0 →
      searchKnowledgeBase retriever (ToolInput.str q) = Except.ok noInfoMessage) ∧
    (docs.length ≠ 0 →
      searchKnowledgeBase retriever (ToolInput.str q)
        = Except.ok (kbHeader ++ joinSep docSeparator (docs.map formatDoc)) ∧
      ((∀ d ∈ docs, countOccs sourceNeedle (sourceLabel d.source).data = 0
          ∧ countOccs sourceNeedle d.pageContent.data = 0) →
        countOccs sourceNeedle
          (kbHeader ++ joinSep docSeparator (docs.map formatDoc)).data = docs.length)) := by
  have hq0 : q ≠ "" := fun h0 => hq (by rw [h0]; rfl)
  have hstep : searchKnowledgeBase retriever (ToolInput.str q)
      = (if docs.length = 0 then Except.ok noInfoMessage
         else Except.ok (kbHeader ++ joinSep docSeparator (docs.map formatDoc))) := by
    simp only [searchKnowledgeBase, toolQuery]
    rw [if_neg (by simp; exact ⟨hq0, hq⟩), hr]
  constructor
  · intro hd; rw [hstep, if_pos hd]
  · intro hd
    refine ⟨by rw [hstep, if_neg hd], ?_⟩
    intro hclean
    exact countOccs_searchResult docs hclean

/-- Witness for C2: two documents (one with a source, one without) produce
the formatted block with exactly two `"Source:"` occurrences. -/
theorem C2_witness :
    searchKnowledgeBase
        (fun _ => Except.ok [⟨some "a.pdf", "Alpha"⟩, ⟨none, "Beta"⟩])
        (ToolInput.str "pricing")
      = Except.ok (kbHeader ++ joinSep docSeparator
          ([⟨some "a.pdf", "Alpha"⟩, ⟨none, "Beta"⟩].map formatDoc))
    ∧ countOccs sourceNeedle
        (kbHeader ++ joinSep docSeparator
          ([⟨some "a.pdf", "Alpha"⟩, (⟨none, "Beta"⟩ : Document)].map formatDoc)).data = 2 := by
  have h := (C2_search_tool_output
      (fun _ => Except.ok [⟨some "a.pdf", "Alpha"⟩, ⟨none, "Beta"⟩]) "pricing"
      [⟨some "a.pdf", "Alpha"⟩, ⟨none, "Beta"⟩] (by decide) rfl).2 (by decide)
  exact ⟨h.1, h.2 (by decide)⟩

/-- Counterexample for C2 as stated: a single retrieved document whose page
content itself contains `"Source:"` makes the tool output contain two
occurrences of `"Source:"`, not one. -/
theorem C2_counterexample :
    searchKnowledgeBase
        (fun _ => Except.ok [⟨some "a.pdf", "See Source: b.pdf"⟩])
        (ToolInput.str "query")
      = Except.ok
          "Found the following information in the knowledge base:\nSource: a.pdf\nContent: See Source: b.pdf"
    ∧ countOccs sourceNeedle
        "Found the following information in the knowledge base:\nSource: a.pdf\nContent: See Source: b.pdf".data
      ≠ ([⟨some "a.pdf", "See Source: b.pdf"⟩] : List Document).length := by
  constructor
  · rfl
  · decide

/-- C3: for an empty or whitespace-only query the tool returns the fixed
tool-error string, and the result does not depend on the retriever at all
(the document store is not consulted). -/
theorem C3_empty_query_no_store_call
    (r1 r2 : String → Except String (List Document)) (input : ToolInput)
    (h : jsTrim (toolQuery input) = "") :
    searchKnowledgeBase r1 input = Except.ok noQueryError ∧
    searchKnowledgeBase r1 input = searchKnowledgeBase r2 input := by
  have hfix : ∀ r : String → Except String (List Document),
      searchKnowledgeBase r input = Except.ok noQueryError := by
    intro r
    simp only [searchKnowledgeBase]
    rw [if_pos (by simp [h])]
  exact ⟨hfix r1, (hfix r1).trans (hfix r2).symm⟩

/-- Witness for C3: a whitespace-only query returns the fixed error string
whether the retriever would succeed or throw. -/
theorem C3_witness :
    searchKnowledgeBase (fun _ => Except.ok []) (ToolInput.str "  \t ")
      = Except.ok noQueryError ∧
    searchKnowledgeBase (fun _ => Except.ok []) (ToolInput.str "  \t ")
      = searchKnowledgeBase (fun _ => Except.error "unreachable") (ToolInput.str "  \t ") :=
  C3_empty_query_no_store_call (fun _ => Except.ok [])
    (fun _ => Except.error "unreachable") (ToolInput.str "  \t ") (by decide)

/-- C4: the message adapter emits exactly one output message per input
message, whatever the roles are. -/
theorem C4_turn_count_preserved (messages : List VercelChatMessage) :
    (convertVercelMessagesToLangChainMessages messages).length = messages.length :=
  List.length_map messages _

/-- C5: a `"user"` message converts to a human message with identical content
and an `"assistant"` message to an ai message with identical content, at the
same position. -/
theorem C5_known_roles_mapped (messages : List VercelChatMessage) (i : Nat)
    (m : VercelChatMessage) (h : messages[i]? = some m) :
    (m.role = "user" →
      (convertVercelMessagesToLangChainMessages messages)[i]?
        = some (BaseMessage.human m.content)) ∧
    (m.role = "assistant" →
      (convertVercelMessagesToLangChainMessages messages)[i]?
        = some (BaseMessage.ai m.content)) := by
  constructor <;> intro hrole <;>
    simp [convertVercelMessagesToLangChainMessages, List.getElem?_map, h,
      convertVercelMessage, hrole]

/-- Witness for C5: a two-message list converts positionally. -/
theorem C5_witness :
    (convertVercelMessagesToLangChainMessages [⟨"user", "hello"⟩, ⟨"assistant", "hi"⟩])[0]?
      = some (BaseMessage.human "hello") ∧
    (convertVercelMessagesToLangChainMessages [⟨"user", "hello"⟩, ⟨"assistant", "hi"⟩])[1]?
      = some (BaseMessage.ai "hi") :=
  ⟨(C5_known_roles_mapped [⟨"user", "hello"⟩, ⟨"assistant", "hi"⟩] 0
      ⟨"user", "hello"⟩ rfl).1 rfl,
   (C5_known_roles_mapped [⟨"user", "hello"⟩, ⟨"assistant", "hi"⟩] 1
      ⟨"assistant", "hi"⟩ rfl).2 rfl⟩

/-- C6: a message with a role outside {user, assistant} converts (without any
error) to a human message carrying the `"Unknown role:"` marker plus the
original content, and a warning naming the unrecognized role is logged. -/
theorem C6_unknown_role_fallback (messages : List VercelChatMessage) (i : Nat)
    (m : VercelChatMessage) (h : messages[i]? = some m)
    (hu : m.role ≠ "user") (ha : m.role ≠ "assistant") :
    (convertVercelMessagesToLangChainMessages messages)[i]?
      = some (BaseMessage.human ("Unknown role: " ++ m.content)) ∧
    ("Unknown message role during conversion: " ++ m.role) ∈ conversionWarnings messages := by
  constructor
  · simp [convertVercelMessagesToLangChainMessages, List.getElem?_map, h,
      convertVercelMessage, hu, ha]
  · have hm : m ∈ messages := List.mem_iff_getElem?.mpr ⟨i, h⟩
    refine List.mem_flatMap.mpr ⟨m, hm, ?_⟩
    simp [convertVercelMessage, hu, ha]

/-- Witness for C6: a `"tool"` role message falls back to a marked human
message and a logged warning. -/
theorem C6_witness :
    (convertVercelMessagesToLangChainMessages [⟨"tool", "result text"⟩])[0]?
      = some (BaseMessage.human ("Unknown role: " ++ "result text")) ∧
    ("Unknown message role during conversion: " ++ "tool")
      ∈ conversionWarnings [⟨"tool", "result text"⟩] :=
  C6_unknown_role_fallback [⟨"tool", "result text"⟩] 0 ⟨"tool", "result text"⟩
    rfl (by decide) (by decide)

lemma POST_parse_error (env : Env) (runFails : AgentInvocation → Option String)
    (e : String) :
    POST env (Except.error e) runFails = HttpResponse.errorJson 500 (outerCatchMessage e) :=
  rfl

lemma POST_no_messages (env : Env) (runFails : AgentInvocation → Option String)
    (b : RequestBody) (hb : b.messages = none ∨ b.messages = some []) :
    POST env (Except.ok b) runFails = HttpResponse.errorJson 400 "No messages provided" := by
  rcases hb with h | h <;> simp [POST, h]

lemma POST_blank_content (env : Env) (runFails : AgentInvocation → Option String)
    (pre : List VercelChatMessage) (last : VercelChatMessage)
    (h : last.content = "") :
    POST env (Except.ok ⟨some (pre ++ [last])⟩) runFails
      = HttpResponse.errorJson 400 "No current message content found" := by
  simp [POST, List.getLast?_concat, h]

lemma POST_env_missing (env : Env) (runFails : AgentInvocation → Option String)
    (pre : List VercelChatMessage) (last : VercelChatMessage)
    (hc : last.content ≠ "") (henv : envMissing env = true) :
    POST env (Except.ok ⟨some (pre ++ [last])⟩) runFails
      = HttpResponse.errorJson 500 "Missing environment variables" := by
  simp [POST, List.getLast?_concat, hc, henv]

lemma POST_dispatch (env : Env) (runFails : AgentInvocation → Option String)
    (pre : List VercelChatMessage) (last : VercelChatMessage)
    (hc : last.content ≠ "") (henv : envMissing env = false) :
    POST env (Except.ok ⟨some (pre ++ [last])⟩) runFails
      = match runFails ⟨last.content, convertVercelMessagesToLangChainMessages pre⟩ with
        | some e => HttpResponse.errorJson 500 (outerCatchMessage e)
        | none =>
            HttpResponse.stream ⟨last.content, convertVercelMessagesToLangChainMessages pre⟩ := by
  simp [POST, List.getLast?_concat, List.dropLast_concat, hc, henv]

/-- C7: for a validated request the handler streams an agent run whose input
is the content of the last client message and whose chat history is exactly
the conversion by the adapter of all preceding messages; in particular a prior
assistant turn "Hi" becomes exactly one internal ai message "Hi". -/
theorem C7_input_and_history_split (env : Env)
    (runFails : AgentInvocation → Option String)
    (pre : List VercelChatMessage) (last : VercelChatMessage)
    (hc : last.content ≠ "")
    (henv : envMissing env = false)
    (hrun : runFails ⟨last.content, convertVercelMessagesToLangChainMessages pre⟩ = none) :
    POST env (Except.ok ⟨some (pre ++ [last])⟩) runFails
      = HttpResponse.stream ⟨last.content, convertVercelMessagesToLangChainMessages pre⟩
    ∧ convertVercelMessagesToLangChainMessages [⟨"assistant", "Hi"⟩]
      = [BaseMessage.ai "Hi"] := by
  refine ⟨?_, rfl⟩
  rw [POST_dispatch env runFails pre last hc henv, hrun]

/-- Witness for C7: a request whose history is a single assistant turn "Hi"
streams with input "Hello" and history `[ai "Hi"]`. -/
theorem C7_witness :
    POST ⟨some "url", some "anon", some "key"⟩
        (Except.ok ⟨some ([⟨"assistant", "Hi"⟩] ++ [⟨"user", "Hello"⟩])⟩) (fun _ => none)
      = HttpResponse.stream ⟨"Hello", [BaseMessage.ai "Hi"]⟩ := by
  have h := (C7_input_and_history_split ⟨some "url", some "anon", some "key"⟩
      (fun _ => none) [⟨"assistant", "Hi"⟩] ⟨"user", "Hello"⟩
      (by decide) (by decide) rfl).1
  simpa using h

/-- C8: the handler returns 400 for an empty message list, 400 for an empty
last-message content, and 500 for missing configuration, the latter decided
before and independently of anything downstream. -/
theorem C8_validation_statuses (env : Env)
    (runFails runFails2 : AgentInvocation → Option String) :
    (POST env (Except.ok ⟨some []⟩) runFails
      = HttpResponse.errorJson 400 "No messages provided") ∧
    (∀ (pre : List VercelChatMessage) (last : VercelChatMessage),
      last.content = "" →
      POST env (Except.ok ⟨some (pre ++ [last])⟩) runFails
        = HttpResponse.errorJson 400 "No current message content found") ∧
    (∀ (pre : List VercelChatMessage) (last : VercelChatMessage),
      last.content ≠ "" → envMissing env = true →
      POST env (Except.ok ⟨some (pre ++ [last])⟩) runFails
          = HttpResponse.errorJson 500 "Missing environment variables" ∧
      POST env (Except.ok ⟨some (pre ++ [last])⟩) runFails
          = POST env (Except.ok ⟨some (pre ++ [last])⟩) runFails2) := by
  refine ⟨POST_no_messages env runFails ⟨some []⟩ (Or.inr rfl), ?_, ?_⟩
  · intro pre last h
    exact POST_blank_content env runFails pre last h
  · intro pre last hc henv
    exact ⟨POST_env_missing env runFails pre last hc henv,
      (POST_env_missing env runFails pre last hc henv).trans
        (POST_env_missing env runFails2 pre last hc henv).symm⟩

/-- Witness for C8: concrete requests hitting each validation branch. -/
theorem C8_witness :
    POST ⟨none, none, none⟩ (Except.ok ⟨some []⟩) (fun _ => none)
      = HttpResponse.errorJson 400 "No messages provided" ∧
    POST ⟨none, none, none⟩ (Except.ok ⟨some ([] ++ [⟨"user", ""⟩])⟩) (fun _ => none)
      = HttpResponse.errorJson 400 "No current message content found" ∧
    POST ⟨none, some "anon", some "key"⟩
        (Except.ok ⟨some ([] ++ [⟨"user", "hello"⟩])⟩) (fun _ => none)
      = HttpResponse.errorJson 500 "Missing environment variables" := by
  refine ⟨(C8_validation_statuses ⟨none, none, none⟩ (fun _ => none) (fun _ => none)).1,
    (C8_validation_statuses ⟨none, none, none⟩ (fun _ => none) (fun _ => none)).2.1
      [] ⟨"user", ""⟩ rfl, ?_⟩
  exact ((C8_validation_statuses ⟨none, some "anon", some "key"⟩ (fun _ => none)
    (fun _ => none)).2.2 [] ⟨"user", "hello"⟩ (by decide) (by decide)).1

/-- C9 (amended): missing or empty input is answered with 400, while a
malformed (unparseable) request body reaches the outer catch and is answered
with 500 carrying the parse error message; 500 is likewise used for missing
configuration and for internal failures during the run. -/
theorem C9_status_taxonomy (env : Env)
    (runFails : AgentInvocation → Option String) :
    (∀ e : String, POST env (Except.error e) runFails
      = HttpResponse.errorJson 500 (outerCatchMessage e)) ∧
    (POST env (Except.ok ⟨none⟩) runFails
      = HttpResponse.errorJson 400 "No messages provided") ∧
    (POST env (Except.ok ⟨some []⟩) runFails
      = HttpResponse.errorJson 400 "No messages provided") ∧
    (∀ (pre : List VercelChatMessage) (last : VercelChatMessage),
      last.content = "" →
      POST env (Except.ok ⟨some (pre ++ [last])⟩) runFails
        = HttpResponse.errorJson 400 "No current message content found") ∧
    (∀ (pre : List VercelChatMessage) (last : VercelChatMessage) (e : String),
      last.content ≠ "" → envMissing env = false →
      runFails ⟨last.content, convertVercelMessagesToLangChainMessages pre⟩ = some e →
      POST env (Except.ok ⟨some (pre ++ [last])⟩) runFails
        = HttpResponse.errorJson 500 (outerCatchMessage e)) := by
  refine ⟨fun e => POST_parse_error env runFails e,
    POST_no_messages env runFails ⟨none⟩ (Or.inl rfl),
    POST_no_messages env runFails ⟨some []⟩ (Or.inr rfl),
    fun pre last h => POST_blank_content env runFails pre last h,
    fun pre last e hc henv hrun => ?_⟩
  rw [POST_dispatch env runFails pre last hc henv, hrun]

/-- Witness for C9: each taxonomy branch at a concrete request. -/
theorem C9_witness :
    POST ⟨some "url", some "anon", some "key"⟩
        (Except.error "Unexpected end of JSON input") (fun _ => none)
      = HttpResponse.errorJson 500 "Unexpected end of JSON input" ∧
    POST ⟨some "url", some "anon", some "key"⟩ (Except.ok ⟨none⟩) (fun _ => none)
      = HttpResponse.errorJson 400 "No messages provided" ∧
    POST ⟨some "url", some "anon", some "key"⟩
        (Except.ok ⟨some ([] ++ [⟨"user", "hi"⟩])⟩) (fun _ => some "rate limited")
      = HttpResponse.errorJson 500 "rate limited" := by
  refine ⟨?_, (C9_status_taxonomy ⟨some "url", some "anon", some "key"⟩ (fun _ => none)).2.1, ?_⟩
  · have h := (C9_status_taxonomy ⟨some "url", some "anon", some "key"⟩
      (fun _ => none)).1 "Unexpected end of JSON input"
    simpa [outerCatchMessage] using h
  · have h := (C9_status_taxonomy ⟨some "url", some "anon", some "key"⟩
      (fun _ => some "rate limited")).2.2.2.2 [] ⟨"user", "hi"⟩ "rate limited"
      (by decide) (by decide) rfl
    simpa [outerCatchMessage] using h

/-- Counterexample for C9 as stated: a request whose body fails to parse is
answered with status 500 (through the outer catch), not 400. -/
theorem C9_counterexample :
    respStatus (POST ⟨some "url", some "anon", some "key"⟩
        (Except.error "Unexpected token < in JSON at position 0") (fun _ => none)) = 500 :=
  rfl

/-- C10: validation order is fixed — empty (or absent) message list first,
then empty last-message content, then configuration — so with several
failures at once the earliest check answers; with an empty list and missing
configuration the response is 400, never 500. -/
theorem C10_validation_order (env : Env)
    (runFails : AgentInvocation → Option String)
    (henv : envMissing env = true) :
    (POST env (Except.ok ⟨none⟩) runFails
      = HttpResponse.errorJson 400 "No messages provided") ∧
    (POST env (Except.ok ⟨some []⟩) runFails
      = HttpResponse.errorJson 400 "No messages provided") ∧
    (∀ (pre : List VercelChatMessage) (last : VercelChatMessage),
      last.content = "" →
      POST env (Except.ok ⟨some (pre ++ [last])⟩) runFails
        = HttpResponse.errorJson 400 "No current message content found") :=
  ⟨POST_no_messages env runFails ⟨none⟩ (Or.inl rfl),
   POST_no_messages env runFails ⟨some []⟩ (Or.inr rfl),
   fun pre last h => POST_blank_content env runFails pre last h⟩

/-- Witness for C10: with every configuration variable absent, an empty (or
missing) message list still gets 400, as does an empty last content. -/
theorem C10_witness :
    POST ⟨none, none, none⟩ (Except.ok ⟨none⟩) (fun _ => none)
      = HttpResponse.errorJson 400 "No messages provided" ∧
    POST ⟨none, none, none⟩ (Except.ok ⟨some []⟩) (fun _ => none)
      = HttpResponse.errorJson 400 "No messages provided" ∧
    POST ⟨none, none, none⟩ (Except.ok ⟨some ([] ++ [⟨"user", ""⟩])⟩) (fun _ => none)
      = HttpResponse.errorJson 400 "No current message content found" := by
  have h := C10_validation_order ⟨none, none, none⟩ (fun _ => none) (by decide)
  exact ⟨h.1, h.2.1, h.2.2 [] ⟨"user", ""⟩ rfl⟩

end AICoach
